import Mathlib

/-!
Shallow embedding of the Insight-Flow backend's authorization and membership
core (project, task and notification services plus the project router), with
theorems checking the specification's claims against it.

Modelling conventions:
* UUIDs are modelled as `Nat`; the store carries a `nextId` counter for fresh
  identifiers (uuid4 collisions are ruled out by freshness hypotheses).
* A SQLAlchemy session is modelled as a pure `Store`; `query(...).first()`
  is `List.find?`, a committed mutation returns the updated store, and a
  raised `ValueError` is `Except.error` carrying the exact message string
  from the source.  A raised error means no commit happened, so the store is
  unchanged — which the `Except` shape captures by not returning a store.
* Member roles are stored as raw strings, mirroring the `String(20)` column
  `project_members.role`; `MemberRole.OWNER.value = "owner"` etc.
* Foreign-key integrity errors (inserting a row referencing a missing user)
  surface as the generic messages the services raise from their
  `IntegrityError` handlers.
-/

namespace InsightFlow

/-- Task status enum from models/task.py: TODO = "todo",
IN_PROGRESS = "in_progress", DONE = "done". -/
inductive TaskStatus where
  | todo
  | inProgress
  | done
deriving DecidableEq, Repr

/-- Decoding a raw string to a task status, as the `TaskStatus(value)` enum
constructor does in Python: succeeds exactly on the three enum values and
raises `ValueError` (here: `none`) otherwise. -/
def TaskStatus.ofString : String → Option TaskStatus
  | "todo" => some TaskStatus.todo
  | "in_progress" => some TaskStatus.inProgress
  | "done" => some TaskStatus.done
  | _ => none

/-- Row of the `projects` table (models/project.py, class Project). -/
structure ProjectRec where
  id : Nat
  name : String
  description : Option String
  owner_id : Nat
  is_active : Bool
deriving DecidableEq, Repr

/-- Row of the `project_members` table (models/project.py, class
ProjectMember).  The `role` column is `String(20)`: an arbitrary string, not
an enforced enum. -/
structure MemberRec where
  project_id : Nat
  user_id : Nat
  role : String
deriving DecidableEq, Repr

/-- Row of the `tasks` table (models/task.py, class Task). -/
structure TaskRec where
  id : Nat
  title : String
  description : Option String
  status : TaskStatus
  project_id : Nat
  assignee_id : Option Nat
  created_by : Nat
  due_date : Option Nat
deriving DecidableEq, Repr

/-- Row of the `notifications` table (models/notification.py).  Only the
fields the notification service reads or writes are modelled. -/
structure NotifRec where
  id : Nat
  user_id : Nat
  ntype : String
  title : String
  message : Option String
  is_read : Bool
deriving DecidableEq, Repr

/-- The relational store seen by one request: the five entity tables (users
are reduced to their ids, which is all the services consult) plus a counter
supplying fresh primary keys. -/
structure Store where
  users : List Nat
  projects : List ProjectRec
  members : List MemberRec
  tasks : List TaskRec
  notifs : List NotifRec
  nextId : Nat
deriving DecidableEq, Repr

/-- Schema ProjectCreate (schemas/project.py): name plus optional
description. -/
structure ProjectCreate where
  name : String
  description : Option String
deriving DecidableEq, Repr

/-- Schema ProjectUpdate (schemas/project.py): all fields optional —
partial-update semantics. -/
structure ProjectUpdate where
  name : Option String
  description : Option String
  is_active : Option Bool
deriving DecidableEq, Repr

/-- Schema ProjectMemberCreate (schemas/project.py): a free-form role string
and a user id.  No validation of `role` is performed by the schema. -/
structure ProjectMemberCreate where
  role : String
  user_id : Nat
deriving DecidableEq, Repr

/-- Schema TaskUpdate (schemas/task.py): all fields optional; `status` is a
raw string, decoded only inside the service. -/
structure TaskUpdate where
  title : Option String
  description : Option String
  status : Option String
  assignee_id : Option Nat
  due_date : Option Nat
deriving DecidableEq, Repr

/-- Schema TaskStatusUpdate (schemas/task.py): a required raw status
string. -/
structure TaskStatusUpdate where
  status : String
deriving DecidableEq, Repr

/-- Schema TaskAssign (schemas/task.py): the new assignee's id. -/
structure TaskAssign where
  assignee_id : Nat
deriving DecidableEq, Repr

/-- The error taxonomy of spec section 7.  Services raise `ValueError`
with a message string; this classifier maps each service message to the
taxonomy bucket the spec assigns it (NotFound: entity absent; Forbidden:
authenticated but not authorized; Conflict: uniqueness/state violation,
including owner-protected mutations; InvalidArgument: malformed enum
value). -/
inductive ErrClass where
  | notFound
  | forbidden
  | conflict
  | invalidArgument
  | internal
deriving DecidableEq, Repr

/-- Classification of every message the modelled services raise, following
the taxonomy of spec section 7. -/
def errClass : String → ErrClass
  | "Project not found" => ErrClass.notFound
  | "Task not found" => ErrClass.notFound
  | "Member not found" => ErrClass.notFound
  | "Assignee not found" => ErrClass.notFound
  | "Notification not found" => ErrClass.notFound
  | "Only project owners and admins can update projects" => ErrClass.forbidden
  | "Only project owners can delete projects" => ErrClass.forbidden
  | "Only project owners and admins can add members" => ErrClass.forbidden
  | "Only project owners and admins can remove members" => ErrClass.forbidden
  | "Only project owners can change member roles" => ErrClass.forbidden
  | "Only task creator or assignee can update task" => ErrClass.forbidden
  | "Only task creator or assignee can update task status" => ErrClass.forbidden
  | "Only task creator can assign task" => ErrClass.forbidden
  | "Only task creator can delete task" => ErrClass.forbidden
  | "User is already a project member" => ErrClass.conflict
  | "Cannot remove project owner" => ErrClass.conflict
  | "Cannot change owner's role" => ErrClass.conflict
  | "Invalid task status" => ErrClass.invalidArgument
  | _ => ErrClass.internal

instance {ε α : Type} [DecidableEq ε] [DecidableEq α] : DecidableEq (Except ε α) :=
  fun a b =>
    match a, b with
    | Except.ok x, Except.ok y =>
      if h : x = y then isTrue (h ▸ rfl) else isFalse (fun hc => h (Except.ok.inj hc))
    | Except.error x, Except.error y =>
      if h : x = y then isTrue (h ▸ rfl) else isFalse (fun hc => h (Except.error.inj hc))
    | Except.ok _, Except.error _ => isFalse (fun hc => nomatch hc)
    | Except.error _, Except.ok _ => isFalse (fun hc => nomatch hc)

/-- Update the first element of a list satisfying `p` by `f`, leaving the
rest unchanged — the effect of mutating the row returned by `.first()` and
committing. -/
def updateFirst (p : α → Bool) (f : α → α) : List α → List α
  | [] => []
  | x :: xs => if p x then f x :: xs else x :: updateFirst p f xs

/-- Remove the first element of a list satisfying `p` — the effect of
`session.delete` on the row returned by `.first()`. -/
def removeFirst (p : α → Bool) : List α → List α
  | [] => []
  | x :: xs => if p x then xs else x :: removeFirst p xs

/-- ProjectService.get_project_by_id: first project row with the given
id. -/
def get_project_by_id (s : Store) (pid : Nat) : Option ProjectRec :=
  s.projects.find? (fun q => q.id == pid)

/-- ProjectService.is_project_member: true iff a membership row exists for
(project, user). -/
def is_project_member (s : Store) (pid uid : Nat) : Bool :=
  (s.members.find? (fun m => m.project_id == pid && m.user_id == uid)).isSome

/-- ProjectService.is_project_admin: false if the project is absent; true if
the user is the project's owner reference; otherwise true iff the user holds
a membership row whose role is "owner" or "admin". -/
def is_project_admin (s : Store) (pid uid : Nat) : Bool :=
  match get_project_by_id s pid with
  | none => false
  | some p =>
    if p.owner_id == uid then true
    else (s.members.find? (fun m =>
      m.project_id == pid && m.user_id == uid &&
        (m.role == "owner" || m.role == "admin"))).isSome

/-- ProjectService.create_project: inserts the project row, then a
membership row for the owner with role "owner", committing both.  A missing
owner user violates the `owner_id` foreign key, which the service's
IntegrityError handler re-raises as "Project creation failed". -/
def create_project (s : Store) (d : ProjectCreate) (owner : Nat) :
    Except String (Store × ProjectRec) :=
  if s.users.contains owner then
    let p : ProjectRec :=
      { id := s.nextId, name := d.name, description := d.description
        owner_id := owner, is_active := true }
    let m : MemberRec := { project_id := s.nextId, user_id := owner, role := "owner" }
    Except.ok ({ s with projects := s.projects ++ [p],
                        members := s.members ++ [m],
                        nextId := s.nextId + 1 }, p)
  else Except.error "Project creation failed"

/-- The field mutations of ProjectService.update_project: each of name,
description and is_active is overwritten exactly when the request supplied
it (the source's three "if field is not None" blocks). -/
def applyProjectFields (p : ProjectRec) (d : ProjectUpdate) : ProjectRec :=
  { p with
    name := d.name.getD p.name
    description := match d.description with
      | some x => some x
      | none => p.description
    is_active := d.is_active.getD p.is_active }

/-- ProjectService.update_project: NotFound if absent, Forbidden unless
is_project_admin, then applies exactly the supplied fields and commits. -/
def update_project (s : Store) (pid : Nat) (d : ProjectUpdate) (uid : Nat) :
    Except String (Store × ProjectRec) :=
  match get_project_by_id s pid with
  | none => Except.error "Project not found"
  | some p =>
    if is_project_admin s pid uid then
      let p' := applyProjectFields p d
      Except.ok ({ s with projects := updateFirst (fun q => q.id == pid) (fun _ => p') s.projects }, p')
    else Except.error "Only project owners and admins can update projects"

/-- ProjectService.delete_project: NotFound if absent, Forbidden unless the
caller is the exact owner; deletion cascades to memberships and tasks. -/
def delete_project (s : Store) (pid uid : Nat) : Except String Store :=
  match get_project_by_id s pid with
  | none => Except.error "Project not found"
  | some p =>
    if p.owner_id == uid then
      Except.ok { s with
        projects := s.projects.filter (fun q => q.id != pid)
        members := s.members.filter (fun m => m.project_id != pid)
        tasks := s.tasks.filter (fun t => t.project_id != pid) }
    else Except.error "Only project owners can delete projects"

/-- ProjectService.add_project_member: NotFound if project absent, Forbidden
unless is_project_admin, Conflict if a membership row already exists, then
inserts the row with the supplied role string verbatim.  A missing target
user violates the `user_id` foreign key, re-raised as "Failed to add project
member". -/
def add_project_member (s : Store) (pid : Nat) (md : ProjectMemberCreate) (uid : Nat) :
    Except String (Store × MemberRec) :=
  match get_project_by_id s pid with
  | none => Except.error "Project not found"
  | some _ =>
    if is_project_admin s pid uid then
      if (s.members.find? (fun m => m.project_id == pid && m.user_id == md.user_id)).isSome then
        Except.error "User is already a project member"
      else if s.users.contains md.user_id then
        let m : MemberRec := { project_id := pid, user_id := md.user_id, role := md.role }
        Except.ok ({ s with members := s.members ++ [m] }, m)
      else Except.error "Failed to add project member"
    else Except.error "Only project owners and admins can add members"

/-- ProjectService.remove_project_member: NotFound if project absent,
Forbidden unless is_project_admin, Conflict if the target is the project's
owner reference, NotFound if no membership row, else deletes the row. -/
def remove_project_member (s : Store) (pid target uid : Nat) : Except String Store :=
  match get_project_by_id s pid with
  | none => Except.error "Project not found"
  | some p =>
    if is_project_admin s pid uid then
      if p.owner_id == target then
        Except.error "Cannot remove project owner"
      else
        match s.members.find? (fun m => m.project_id == pid && m.user_id == target) with
        | none => Except.error "Member not found"
        | some _ =>
          Except.ok { s with
            members := removeFirst (fun m => m.project_id == pid && m.user_id == target) s.members }
    else Except.error "Only project owners and admins can remove members"

/-- ProjectService.update_member_role: NotFound if project absent, Forbidden
unless the caller is the exact owner, Conflict if the target is the owner,
NotFound if no membership row, else stores the supplied role string
verbatim. -/
def update_member_role (s : Store) (pid target : Nat) (newRole : String) (uid : Nat) :
    Except String (Store × MemberRec) :=
  match get_project_by_id s pid with
  | none => Except.error "Project not found"
  | some p =>
    if p.owner_id == uid then
      if p.owner_id == target then
        Except.error "Cannot change owner's role"
      else
        match s.members.find? (fun m => m.project_id == pid && m.user_id == target) with
        | none => Except.error "Member not found"
        | some m =>
          Except.ok ({ s with
            members := updateFirst (fun x => x.project_id == pid && x.user_id == target)
              (fun x => { x with role := newRole }) s.members }, { m with role := newRole })
    else Except.error "Only project owners can change member roles"

/-- TaskService.get_task_by_id: first task row with the given id. -/
def get_task_by_id (s : Store) (tid : Nat) : Option TaskRec :=
  s.tasks.find? (fun t => t.id == tid)

/-- Sequential application of the optional TaskUpdate fields to a task row,
in the source's order (title, description, status, assignee_id, due_date);
an undecodable status string aborts with "Invalid task status" before any
commit. -/
def apply_task_fields (t : TaskRec) (d : TaskUpdate) : Except String TaskRec :=
  let t1 := match d.title with
    | some x => { t with title := x }
    | none => t
  let t2 := match d.description with
    | some x => { t1 with description := some x }
    | none => t1
  let decoded : Except String (Option TaskStatus) := match d.status with
    | some st =>
      match TaskStatus.ofString st with
      | some v => Except.ok (some v)
      | none => Except.error "Invalid task status"
    | none => Except.ok none
  match decoded with
  | Except.error e => Except.error e
  | Except.ok ov =>
    let t3 := match ov with
      | some v => { t2 with status := v }
      | none => t2
    let t4 := match d.assignee_id with
      | some a => { t3 with assignee_id := some a }
      | none => t3
    let t5 := match d.due_date with
      | some x => { t4 with due_date := some x }
      | none => t4
    Except.ok t5

/-- TaskService.update_task: NotFound if absent; Forbidden unless the caller
is the task's creator or its current assignee; NotFound if a supplied
assignee does not exist; then applies exactly the supplied fields (an
invalid status string aborts with "Invalid task status" and nothing is
committed). -/
def update_task (s : Store) (tid : Nat) (d : TaskUpdate) (uid : Nat) :
    Except String (Store × TaskRec) :=
  match get_task_by_id s tid with
  | none => Except.error "Task not found"
  | some t =>
    if t.created_by == uid || t.assignee_id == some uid then
      let cont : Except String (Store × TaskRec) :=
        match apply_task_fields t d with
        | Except.error e => Except.error e
        | Except.ok t' =>
          Except.ok ({ s with tasks := updateFirst (fun x => x.id == tid) (fun _ => t') s.tasks }, t')
      match d.assignee_id with
      | some a => if s.users.contains a then cont else Except.error "Assignee not found"
      | none => cont
    else Except.error "Only task creator or assignee can update task"

/-- TaskService.delete_task: NotFound if absent; Forbidden unless the caller
is the task's creator; else deletes the row. -/
def delete_task (s : Store) (tid uid : Nat) : Except String Store :=
  match get_task_by_id s tid with
  | none => Except.error "Task not found"
  | some t =>
    if t.created_by == uid then
      Except.ok { s with tasks := s.tasks.filter (fun x => x.id != tid) }
    else Except.error "Only task creator can delete task"

/-- TaskService.update_task_status: NotFound if absent; Forbidden unless the
caller is the task's creator or current assignee; InvalidArgument
("Invalid task status") unless the string decodes to a TaskStatus; else
stores the decoded status. -/
def update_task_status (s : Store) (tid : Nat) (du : TaskStatusUpdate) (uid : Nat) :
    Except String (Store × TaskRec) :=
  match get_task_by_id s tid with
  | none => Except.error "Task not found"
  | some t =>
    if t.created_by == uid || t.assignee_id == some uid then
      match TaskStatus.ofString du.status with
      | none => Except.error "Invalid task status"
      | some v =>
        let t' := { t with status := v }
        Except.ok ({ s with tasks := updateFirst (fun x => x.id == tid) (fun _ => t') s.tasks }, t')
    else Except.error "Only task creator or assignee can update task status"

/-- TaskService.assign_task: NotFound if absent; Forbidden unless the caller
is the task's creator (the current assignee may NOT reassign); NotFound if
the new assignee does not exist; else stores the new assignee. -/
def assign_task (s : Store) (tid : Nat) (da : TaskAssign) (uid : Nat) :
    Except String (Store × TaskRec) :=
  match get_task_by_id s tid with
  | none => Except.error "Task not found"
  | some t =>
    if t.created_by == uid then
      if s.users.contains da.assignee_id then
        let t' := { t with assignee_id := some da.assignee_id }
        Except.ok ({ s with tasks := updateFirst (fun x => x.id == tid) (fun _ => t') s.tasks }, t')
      else Except.error "Assignee not found"
    else Except.error "Only task creator can assign task"

/-- Effect of the bulk update in
NotificationService.mark_all_notifications_read on one row: the rows of the
filter (owned by the user and unread) get is_read set; every other row is
untouched. -/
def markRead (uid : Nat) (n : NotifRec) : NotifRec :=
  if n.user_id == uid && n.is_read == false then { n with is_read := true } else n

/-- NotificationService.mark_all_notifications_read: bulk update setting
is_read on every unread row of the user; always succeeds and returns
true. -/
def mark_all_notifications_read (s : Store) (uid : Nat) : Except String (Store × Bool) :=
  Except.ok ({ s with notifs := s.notifs.map (markRead uid) }, true)

/-- Number of unread notification rows a user holds in the store. -/
def unreadCount (s : Store) (uid : Nat) : Nat :=
  (s.notifs.filter (fun n => n.user_id == uid && n.is_read == false)).length

/-- Outcome of an HTTP handler: success, or an error response with a status
code and detail string. -/
inductive HResp where
  | ok
  | err (code : Nat) (detail : String)
deriving DecidableEq, Repr

/-- Router read_project (GET /projects/[id], routers/projects.py lines
51-99): the path id is `none` when uuid.UUID fails to parse it (422);
otherwise the membership check runs first (403 on failure), then the
existence check (404), then the member listing and the 200 response. -/
def read_project_handler (s : Store) (pid : Option Nat) (uid : Nat) : HResp :=
  match pid with
  | none => HResp.err 422 "Invalid project ID format"
  | some pid =>
    if is_project_member s pid uid then
      match get_project_by_id s pid with
      | none => HResp.err 404 "Project not found"
      | some _ => HResp.ok
    else HResp.err 403 "Not a member of this project"

/-- Router update_project (PUT /projects/[id], routers/projects.py lines
124-146): the uuid parse and the service call sit in one try block whose
ValueError handler returns HTTP 400 with the message — a malformed id, an
absent project and a forbidden caller all surface as 400. -/
def update_project_handler (s : Store) (pid : Option Nat) (d : ProjectUpdate) (uid : Nat) : HResp :=
  match pid with
  | none => HResp.err 400 "badly formed hexadecimal UUID string"
  | some pid =>
    match update_project s pid d uid with
    | Except.error e => HResp.err 400 e
    | Except.ok _ => HResp.ok

/-- Router delete_project (DELETE /projects/[id], routers/projects.py lines
148-168): same single try/except shape as the PUT handler — every
ValueError, uuid parse failure included, becomes HTTP 400. -/
def delete_project_handler (s : Store) (pid : Option Nat) (uid : Nat) : HResp :=
  match pid with
  | none => HResp.err 400 "badly formed hexadecimal UUID string"
  | some pid =>
    match delete_project s pid uid with
    | Except.error e => HResp.err 400 e
    | Except.ok _ => HResp.ok

/-- Concrete project row used by the demo store: project 10 owned by
user 1. -/
def demoProj : ProjectRec :=
  { id := 10, name := "P", description := none, owner_id := 1, is_active := true }

/-- Concrete task row used by the demo store: task 11 in project 10,
created by user 1, assigned to user 2. -/
def demoTask : TaskRec :=
  { id := 11, title := "T", description := none, status := TaskStatus.todo,
    project_id := 10, assignee_id := some 2, created_by := 1, due_date := none }

/-- A small concrete store used by witnesses and counterexamples: users 1,
2, 3; project 10 owned by user 1 with member rows (1, owner) and
(2, member); task 11 created by user 1 and assigned to user 2; one unread
notification for user 1. -/
def demoStore : Store :=
  { users := [1, 2, 3]
    projects := [demoProj]
    members := [{ project_id := 10, user_id := 1, role := "owner" },
                { project_id := 10, user_id := 2, role := "member" }]
    tasks := [demoTask]
    notifs := [{ id := 12, user_id := 1, ntype := "task", title := "n", message := none,
                 is_read := false }]
    nextId := 20 }

theorem find?_append_split {α : Type} (l1 l2 : List α) (p : α → Bool) :
    (l1 ++ l2).find? p = ((l1.find? p).orElse (fun _ => l2.find? p)) := by
  induction l1 with
  | nil => simp
  | cons x xs ih =>
    by_cases h : p x <;> simp [List.find?_cons, h, ih]

theorem find?_updateFirst {α : Type} (l : List α) (p : α → Bool) (f : α → α) (t : α)
    (h : l.find? p = some t) (hf : p (f t) = true) :
    (updateFirst p f l).find? p = some (f t) := by
  induction l with
  | nil => simp at h
  | cons x xs ih =>
    by_cases hx : p x
    · simp [List.find?_cons, hx] at h
      subst h
      simp [updateFirst, hx, List.find?_cons, hf]
    · simp [List.find?_cons, hx] at h
      simp [updateFirst, hx, List.find?_cons, ih h]

theorem mem_updateFirst {α : Type} (l : List α) (p : α → Bool) (f : α → α) (x : α)
    (h : x ∈ updateFirst p f l) : x ∈ l ∨ ∃ y, y ∈ l ∧ x = f y := by
  induction l with
  | nil => simp [updateFirst] at h
  | cons a as ih =>
    by_cases ha : p a
    · simp [updateFirst, ha] at h
      rcases h with h | h
      · exact Or.inr ⟨a, List.mem_cons_self a as, h⟩
      · exact Or.inl (List.mem_cons_of_mem a h)
    · simp [updateFirst, ha] at h
      rcases h with h | h
      · exact Or.inl (h ▸ List.mem_cons_self a as)
      · rcases ih h with h | ⟨y, hy, hxy⟩
        · exact Or.inl (List.mem_cons_of_mem a h)
        · exact Or.inr ⟨y, List.mem_cons_of_mem a hy, hxy⟩

theorem markRead_not_unread (uid : Nat) (n : NotifRec) :
    ((markRead uid n).user_id == uid && (markRead uid n).is_read == false) = false := by
  unfold markRead
  by_cases hu : n.user_id == uid
  · by_cases hr : n.is_read <;> simp [hu, hr]
  · simp [hu]

theorem markRead_idem (uid : Nat) (n : NotifRec) :
    markRead uid (markRead uid n) = markRead uid n := by
  unfold markRead
  by_cases hu : n.user_id == uid
  · by_cases hr : n.is_read <;> simp [hu, hr]
  · simp [hu]

theorem markRead_user_id (uid : Nat) (n : NotifRec) :
    (markRead uid n).user_id = n.user_id := by
  unfold markRead
  split <;> rfl

theorem markRead_other (uid : Nat) (n : NotifRec) (h : (n.user_id == uid) = false) :
    markRead uid n = n := by
  unfold markRead
  simp [h]

theorem markAll_unread_nil (uid : Nat) (l : List NotifRec) :
    (l.map (markRead uid)).filter
      (fun n => n.user_id == uid && n.is_read == false) = [] := by
  induction l with
  | nil => rfl
  | cons n ns ih =>
    simp only [List.map_cons, List.filter_cons, markRead_not_unread]
    exact ih

theorem markAll_idem (uid : Nat) (l : List NotifRec) :
    (l.map (markRead uid)).map (markRead uid) = l.map (markRead uid) := by
  induction l with
  | nil => rfl
  | cons n ns ih =>
    simp only [List.map_cons, markRead_idem]
    rw [ih]

theorem markAll_frame (uid : Nat) (l : List NotifRec) :
    (l.map (markRead uid)).filter (fun n => n.user_id != uid) =
    l.filter (fun n => n.user_id != uid) := by
  induction l with
  | nil => rfl
  | cons n ns ih =>
    simp only [List.map_cons, List.filter_cons, markRead_user_id]
    by_cases h : n.user_id != uid
    · have hm : markRead uid n = n := markRead_other uid n (by simpa [bne] using h)
      simp [h, hm, ih]
    · simp [h, ih]

/-- C10: markAllRead is idempotent and total: for every user and every
store, one call succeeds and leaves the user with zero unread rows, a
second call succeeds and changes nothing (same store, unread still zero),
it never errors even when no unread rows exist, and every notification of
another user is untouched. -/
theorem mark_all_read_idempotent_total (s : Store) (uid : Nat) :
    ∃ s1, mark_all_notifications_read s uid = Except.ok (s1, true) ∧
      unreadCount s1 uid = 0 ∧
      mark_all_notifications_read s1 uid = Except.ok (s1, true) ∧
      s1.notifs.filter (fun n => n.user_id != uid) =
        s.notifs.filter (fun n => n.user_id != uid) := by
  refine ⟨_, rfl, ?_, ?_, ?_⟩
  · simpa [unreadCount] using markAll_unread_nil uid s.notifs
  · simp only [mark_all_notifications_read]
    rw [markAll_idem]
  · simpa using markAll_frame uid s.notifs

/-- C8 (code bug evidence): the PUT and DELETE handlers on /projects/[id]
wrap the uuid parse and the service call in one try/except that maps every
ValueError to HTTP 400, so an absent project, a caller lacking the required
role and a malformed id all yield 400 — not the 404/403/422 the spec table
and the repository's own tests (test_update_project_not_owner,
test_update_project_invalid_uuid, test_delete_project_invalid_uuid)
expect. -/
theorem project_put_delete_handlers_return_400 :
    update_project_handler demoStore (some 99)
        { name := some "N", description := none, is_active := none } 1 =
      HResp.err 400 "Project not found" ∧
    delete_project_handler demoStore (some 99) 1 = HResp.err 400 "Project not found" ∧
    update_project_handler demoStore none
        { name := some "N", description := none, is_active := none } 1 =
      HResp.err 400 "badly formed hexadecimal UUID string" ∧
    delete_project_handler demoStore none 1 =
      HResp.err 400 "badly formed hexadecimal UUID string" ∧
    update_project_handler demoStore (some 10)
        { name := some "N", description := none, is_active := none } 3 =
      HResp.err 400 "Only project owners and admins can update projects" ∧
    delete_project_handler demoStore (some 10) 2 =
      HResp.err 400 "Only project owners can delete projects" := by
  decide

/-- C2 counterexample: with project 10 owned by user 1, caller 2 holding
only role "member", the target being the owner makes both operations fail
with the Forbidden-class authorization message, not Conflict — refuting
the claim that the error is Conflict regardless of the caller's role. -/
theorem removeMember_owner_target_not_conflict_cex :
    remove_project_member demoStore 10 1 2 =
      Except.error "Only project owners and admins can remove members" ∧
    errClass "Only project owners and admins can remove members" ≠ ErrClass.conflict ∧
    update_member_role demoStore 10 1 "admin" 2 =
      Except.error "Only project owners can change member roles" ∧
    errClass "Only project owners can change member roles" ≠ ErrClass.conflict := by
  decide

/-- C3 counterexample: user 1 (the owner) adds user 3 with the role string
"superuser"; the call succeeds and stores "superuser" verbatim, which is
outside the closed set of roles — the schema and service never validate the
role string. -/
theorem addMember_arbitrary_role_cex :
    add_project_member demoStore 10 { role := "superuser", user_id := 3 } 1 =
      Except.ok ({ demoStore with members := demoStore.members ++
          [{ project_id := 10, user_id := 3, role := "superuser" }] },
        { project_id := 10, user_id := 3, role := "superuser" }) ∧
    "superuser" ≠ "owner" ∧ "superuser" ≠ "admin" ∧ "superuser" ≠ "member" := by
  decide

/-- C2 (amended): when the target of removeMember or updateMemberRole is
the project's owner reference, both operations always fail and the
membership table is unchanged (no commit happens on the error path), for
every caller; but the error is Conflict only when the caller passes the
respective authorization gate (is-admin-or-owner for remove, exact-owner
for role update) and Forbidden otherwise, because the authorization check
runs before the owner-protection check. -/
theorem owner_target_always_rejected (s : Store) (pid target caller : Nat) (r : String)
    (p : ProjectRec) (hp : get_project_by_id s pid = some p) (ht : p.owner_id = target) :
    (∃ e, remove_project_member s pid target caller = Except.error e ∧
      errClass e = (if is_project_admin s pid caller then ErrClass.conflict
        else ErrClass.forbidden)) ∧
    (∃ e, update_member_role s pid target r caller = Except.error e ∧
      errClass e = (if p.owner_id == caller then ErrClass.conflict
        else ErrClass.forbidden)) := by
  constructor
  · cases ha : is_project_admin s pid caller
    · refine ⟨"Only project owners and admins can remove members", ?_, rfl⟩
      unfold remove_project_member
      rw [hp]
      dsimp only
      rw [if_neg (by simp [ha])]
    · refine ⟨"Cannot remove project owner", ?_, rfl⟩
      unfold remove_project_member
      rw [hp]
      dsimp only
      rw [if_pos ha, if_pos (by simp [ht])]
  · cases hc : p.owner_id == caller
    · refine ⟨"Only project owners can change member roles", ?_, rfl⟩
      unfold update_member_role
      rw [hp]
      dsimp only
      rw [if_neg (by simp [hc])]
    · refine ⟨"Cannot change owner's role", ?_, rfl⟩
      unfold update_member_role
      rw [hp]
      dsimp only
      rw [if_pos hc, if_pos (by simp [ht])]

theorem owner_target_always_rejected_witness :
    (∃ e, remove_project_member demoStore 10 1 2 = Except.error e ∧
      errClass e = (if is_project_admin demoStore 10 2 then ErrClass.conflict
        else ErrClass.forbidden)) ∧
    (∃ e, update_member_role demoStore 10 1 "admin" 2 = Except.error e ∧
      errClass e = (if demoProj.owner_id == 2 then ErrClass.conflict
        else ErrClass.forbidden)) :=
  owner_target_always_rejected demoStore 10 1 2 "admin" demoProj rfl rfl

/-- C9: for every authenticated caller and well-formed project id that
refers to no existing project, GET /projects/[id] answers 403 Forbidden,
never 404: the membership check runs before the existence check, and under
referential integrity (every membership row points at an existing project)
no membership row can exist for an absent project, so the 404 branch is
unreachable. -/
theorem read_project_absent_forbidden (s : Store) (pid uid : Nat)
    (hfk : ∀ m ∈ s.members, ∃ p ∈ s.projects, p.id = m.project_id)
    (habs : ∀ p ∈ s.projects, p.id ≠ pid) :
    read_project_handler s (some pid) uid = HResp.err 403 "Not a member of this project" := by
  have hfind : s.members.find? (fun m => m.project_id == pid && m.user_id == uid) = none := by
    rw [List.find?_eq_none]
    intro m hm
    rcases hfk m hm with ⟨p, hpmem, hpid⟩
    have hne : m.project_id ≠ pid := fun hc => habs p hpmem (hpid.trans hc)
    simp [hne]
  have hmem : is_project_member s pid uid = false := by
    unfold is_project_member
    rw [hfind]
    rfl
  simp [read_project_handler, hmem]

theorem read_project_absent_forbidden_witness :
    read_project_handler demoStore (some 99) 2 = HResp.err 403 "Not a member of this project" :=
  read_project_absent_forbidden demoStore 99 2 (by decide) (by decide)

/-- The project row created for project creation on the demo store. -/
def demoNewProj : ProjectRec :=
  { id := 20, name := "Q", description := none, owner_id := 1, is_active := true }

/-- The demo store after user 1 creates project 20. -/
def demoCreatedStore : Store :=
  { demoStore with
    projects := demoStore.projects ++ [demoNewProj]
    members := demoStore.members ++ [{ project_id := 20, user_id := 1, role := "owner" }]
    nextId := 21 }

/-- C1: whenever createProject succeeds, the store holds exactly one
membership row for (new project, owner) and its role is "owner", and
is_project_admin for the new project and the creator is true — for every
owner, name and description.  The freshness hypothesis reflects that the
new primary key collides with no existing membership row. -/
theorem createProject_seeds_owner_membership (s : Store) (d : ProjectCreate) (owner : Nat)
    (hm : ∀ m ∈ s.members, m.project_id ≠ s.nextId)
    (s' : Store) (p : ProjectRec)
    (h : create_project s d owner = Except.ok (s', p)) :
    s'.members.filter (fun m => m.project_id == p.id && m.user_id == owner) =
      [{ project_id := p.id, user_id := owner, role := "owner" }] ∧
    is_project_admin s' p.id owner = true := by
  unfold create_project at h
  by_cases hu : s.users.contains owner = true
  · rw [if_pos hu] at h
    injection h with hpair
    injection hpair with h1 h2
    subst h1
    subst h2
    constructor
    · rw [List.filter_append]
      have hnil : s.members.filter
          (fun m => m.project_id == s.nextId && m.user_id == owner) = [] := by
        rw [List.filter_eq_nil_iff]
        intro m hmem
        simp [hm m hmem]
      simp [hnil]
    · unfold is_project_admin get_project_by_id
      rw [find?_append_split]
      have hnew : [({ id := s.nextId, name := d.name, description := d.description,
                      owner_id := owner, is_active := true } : ProjectRec)].find?
          (fun q => q.id == s.nextId) =
          some { id := s.nextId, name := d.name, description := d.description,
                 owner_id := owner, is_active := true } := by
        simp [List.find?_cons]
      cases hfind : s.projects.find? (fun q => q.id == s.nextId) with
      | none =>
        simp [hfind, hnew, Option.orElse]
      | some q =>
        cases hq : q.owner_id == owner with
        | true => simp [hfind, Option.orElse, hq]
        | false =>
          simp only [hfind, Option.orElse]
          rw [if_neg (by simp [hq])]
          rw [find?_append_split]
          have hnilm : s.members.find? (fun m =>
              m.project_id == s.nextId && m.user_id == owner &&
                (m.role == "owner" || m.role == "admin")) = none := by
            rw [List.find?_eq_none]
            intro m hmem
            simp [hm m hmem]
          simp [hnilm, Option.orElse, List.find?_cons]
  · rw [if_neg hu] at h
    simp at h

theorem createProject_seeds_owner_membership_witness :
    demoCreatedStore.members.filter
        (fun m => m.project_id == demoNewProj.id && m.user_id == 1) =
      [{ project_id := demoNewProj.id, user_id := 1, role := "owner" }] ∧
    is_project_admin demoCreatedStore demoNewProj.id 1 = true :=
  createProject_seeds_owner_membership demoStore { name := "Q", description := none } 1
    (by decide) demoCreatedStore demoNewProj (by decide)

/-- A role string of the closed set {OWNER, ADMIN, MEMBER} (stored values
"owner", "admin", "member"). -/
def validRole (r : String) : Prop :=
  r = "owner" ∨ r = "admin" ∨ r = "member"

instance (r : String) : Decidable (validRole r) := by
  unfold validRole
  infer_instance

/-- Every membership row of the store carries a role from the closed
set. -/
def RolesOk (s : Store) : Prop :=
  ∀ m ∈ s.members, validRole m.role

instance (s : Store) : Decidable (RolesOk s) := by
  unfold RolesOk
  infer_instance

/-- C3 (amended): createProject always seeds the membership row with role
"owner", so it preserves the closed-set invariant unconditionally; but
addMember and updateMemberRole store the supplied role string verbatim with
no validation, so they preserve the invariant only when the supplied role
is itself in the closed set (for an arbitrary string the invariant is
violated, see the counterexample). -/
theorem roles_closed_set_preserved (s : Store) (hs : RolesOk s) :
    (∀ d owner s' p, create_project s d owner = Except.ok (s', p) → RolesOk s') ∧
    (∀ pid md uid s' m, validRole md.role →
      add_project_member s pid md uid = Except.ok (s', m) → RolesOk s') ∧
    (∀ pid target r uid s' m, validRole r →
      update_member_role s pid target r uid = Except.ok (s', m) → RolesOk s') := by
  refine ⟨?_, ?_, ?_⟩
  · intro d owner s' p h
    unfold create_project at h
    by_cases hu : s.users.contains owner = true
    · rw [if_pos hu] at h
      injection h with hpair
      injection hpair with h1 h2
      subst h1
      intro x hx
      rcases List.mem_append.mp hx with hmem | hmem
      · exact hs x hmem
      · simp at hmem
        subst hmem
        exact Or.inl rfl
    · rw [if_neg hu] at h
      simp at h
  · intro pid md uid s' m hr h
    unfold add_project_member at h
    split at h
    · simp at h
    · split at h
      · split at h
        · simp at h
        · split at h
          · injection h with hpair
            injection hpair with h1 h2
            subst h1
            intro x hx
            rcases List.mem_append.mp hx with hmem | hmem
            · exact hs x hmem
            · simp at hmem
              subst hmem
              exact hr
          · simp at h
      · simp at h
  · intro pid target r uid s' m hr h
    unfold update_member_role at h
    split at h
    · simp at h
    · split at h
      · split at h
        · simp at h
        · split at h
          · simp at h
          · injection h with hpair
            injection hpair with h1 h2
            subst h1
            intro x hx
            rcases mem_updateFirst _ _ _ _ hx with hmem | ⟨y, hy, hxy⟩
            · exact hs x hmem
            · subst hxy
              exact hr
      · simp at h

/-- The demo store after the owner adds user 3 with the valid role
"admin". -/
def addAdminStore : Store :=
  { demoStore with members := demoStore.members ++
      [{ project_id := 10, user_id := 3, role := "admin" }] }

theorem roles_closed_set_preserved_witness :
    RolesOk demoStore ∧ RolesOk addAdminStore :=
  ⟨by decide, (roles_closed_set_preserved demoStore (by decide)).2.1 10
    { role := "admin", user_id := 3 } 1 addAdminStore
    { project_id := 10, user_id := 3, role := "admin" } (Or.inr (Or.inl rfl)) (by decide)⟩

/-- C7: updateProject fails with NotFound when the project is absent, with
Forbidden when the caller is not admin-or-owner, and otherwise applies
exactly the supplied fields: the stored row becomes applyProjectFields p d,
and every omitted field keeps its previous stored value. -/
theorem update_project_contract (s : Store) (pid uid : Nat) (d : ProjectUpdate) :
    (get_project_by_id s pid = none →
      update_project s pid d uid = Except.error "Project not found" ∧
      errClass "Project not found" = ErrClass.notFound) ∧
    (∀ p, get_project_by_id s pid = some p → is_project_admin s pid uid = false →
      update_project s pid d uid =
        Except.error "Only project owners and admins can update projects" ∧
      errClass "Only project owners and admins can update projects" = ErrClass.forbidden) ∧
    (∀ p, get_project_by_id s pid = some p → is_project_admin s pid uid = true →
      update_project s pid d uid = Except.ok
        ({ s with projects := updateFirst (fun q => q.id == pid)
                                (fun _ => applyProjectFields p d) s.projects },
          applyProjectFields p d) ∧
      get_project_by_id { s with projects := updateFirst (fun q => q.id == pid)
                                   (fun _ => applyProjectFields p d) s.projects } pid =
        some (applyProjectFields p d) ∧
      (d.name = none → (applyProjectFields p d).name = p.name) ∧
      (d.description = none → (applyProjectFields p d).description = p.description) ∧
      (d.is_active = none → (applyProjectFields p d).is_active = p.is_active)) := by
  refine ⟨?_, ?_, ?_⟩
  · intro h
    unfold update_project
    rw [h]
    exact ⟨rfl, rfl⟩
  · intro p hp hadm
    unfold update_project
    rw [hp]
    dsimp only
    rw [if_neg (by simp [hadm])]
    exact ⟨rfl, rfl⟩
  · intro p hp hadm
    refine ⟨?_, ?_, ?_, ?_, ?_⟩
    · unfold update_project
      rw [hp]
      dsimp only
      rw [if_pos hadm]
    · have hp' : s.projects.find? (fun q => q.id == pid) = some p := hp
      have hpp := List.find?_some hp'
      unfold get_project_by_id
      exact find?_updateFirst _ _ _ _ hp' hpp
    · intro h0
      simp [applyProjectFields, h0]
    · intro h0
      simp [applyProjectFields, h0]
    · intro h0
      simp [applyProjectFields, h0]

/-- A partial update supplying only a new name. -/
def demoUpd : ProjectUpdate :=
  { name := some "N", description := none, is_active := none }

theorem update_project_contract_witness :
    update_project demoStore 10 demoUpd 1 = Except.ok
      ({ demoStore with projects := updateFirst (fun q => q.id == 10)
                          (fun _ => applyProjectFields demoProj demoUpd)
                          demoStore.projects },
        applyProjectFields demoProj demoUpd) :=
  ((update_project_contract demoStore 10 1 demoUpd).2.2 demoProj rfl rfl).1

/-- A TaskUpdate payload supplying only a new assignee. -/
def assignOnly (u : Nat) : TaskUpdate :=
  { title := none, description := none, status := none, assignee_id := some u,
    due_date := none }

/-- A TaskUpdate payload supplying a status string (plus optional title,
description and due date; no assignee). -/
def withStatusField (ti de : Option String) (st : String) (du : Option Nat) : TaskUpdate :=
  { title := ti, description := de, status := some st, assignee_id := none,
    due_date := du }

theorem update_task_no_assignee (s : Store) (tid uid : Nat) (t : TaskRec) (d : TaskUpdate)
    (ht : get_task_by_id s tid = some t)
    (hb : (t.created_by == uid || t.assignee_id == some uid) = true)
    (hd : d.assignee_id = none) :
    update_task s tid d uid =
      match apply_task_fields t d with
      | Except.error e => Except.error e
      | Except.ok t' =>
        Except.ok ({ s with tasks := updateFirst (fun x => x.id == tid)
                              (fun _ => t') s.tasks }, t') := by
  unfold update_task
  rw [ht]
  dsimp only
  rw [if_pos hb, hd]

theorem update_task_with_assignee (s : Store) (tid uid : Nat) (t : TaskRec) (d : TaskUpdate)
    (a : Nat) (ht : get_task_by_id s tid = some t)
    (hb : (t.created_by == uid || t.assignee_id == some uid) = true)
    (hd : d.assignee_id = some a) (hc : s.users.contains a = true) :
    update_task s tid d uid =
      match apply_task_fields t d with
      | Except.error e => Except.error e
      | Except.ok t' =>
        Except.ok ({ s with tasks := updateFirst (fun x => x.id == tid)
                              (fun _ => t') s.tasks }, t') := by
  unfold update_task
  rw [ht]
  dsimp only
  rw [if_pos hb, hd]
  dsimp only
  rw [if_pos hc]

/-- C5: for an existing task, assign fails with Forbidden whenever the
caller is not the task's creator (so in particular when the caller is the
current assignee), behind that gate it fails with NotFound whenever the new
assignee does not exist, and when the caller is the creator and the
assignee exists the task's assignee becomes the new user. -/
theorem assign_task_contract (s : Store) (tid uid : Nat) (t : TaskRec)
    (ht : get_task_by_id s tid = some t) :
    (∀ a, t.created_by ≠ uid →
      assign_task s tid { assignee_id := a } uid =
        Except.error "Only task creator can assign task" ∧
      errClass "Only task creator can assign task" = ErrClass.forbidden) ∧
    (∀ a, t.created_by = uid → s.users.contains a = false →
      assign_task s tid { assignee_id := a } uid = Except.error "Assignee not found" ∧
      errClass "Assignee not found" = ErrClass.notFound) ∧
    (∀ a, t.created_by = uid → s.users.contains a = true →
      assign_task s tid { assignee_id := a } uid = Except.ok
        ({ s with tasks := updateFirst (fun x => x.id == tid)
                             (fun _ => { t with assignee_id := some a }) s.tasks },
          { t with assignee_id := some a })) := by
  refine ⟨?_, ?_, ?_⟩
  · intro a hne
    refine ⟨?_, rfl⟩
    unfold assign_task
    rw [ht]
    dsimp only
    rw [if_neg (by simpa using hne)]
  · intro a heq hc
    refine ⟨?_, rfl⟩
    unfold assign_task
    rw [ht]
    dsimp only
    rw [if_pos (by simp [heq]), if_neg (by simpa using hc)]
  · intro a heq hc
    unfold assign_task
    rw [ht]
    dsimp only
    rw [if_pos (by simp [heq]), if_pos hc]

theorem assign_task_contract_witness :
    assign_task demoStore 11 { assignee_id := 3 } 2 =
      Except.error "Only task creator can assign task" ∧
    errClass "Only task creator can assign task" = ErrClass.forbidden :=
  (assign_task_contract demoStore 11 2 demoTask rfl).1 3 (by decide)

/-- C6: a task's current assignee who is not its creator can change the
assignee through updateTask (the creator-or-assignee gate admits the
assignee and the assignee_id field is applied verbatim), even though the
dedicated assign operation rejects exactly that caller with Forbidden. -/
theorem assignee_can_reassign_via_update_task (s : Store) (tid : Nat) (t : TaskRec) (a u : Nat)
    (ht : get_task_by_id s tid = some t)
    (ha : t.assignee_id = some a)
    (hna : t.created_by ≠ a)
    (hu : s.users.contains u = true) :
    update_task s tid (assignOnly u) a =
      Except.ok
        ({ s with tasks := updateFirst (fun x => x.id == tid)
                             (fun _ => { t with assignee_id := some u }) s.tasks },
          { t with assignee_id := some u }) ∧
    assign_task s tid { assignee_id := u } a =
      Except.error "Only task creator can assign task" ∧
    errClass "Only task creator can assign task" = ErrClass.forbidden := by
  refine ⟨?_, ?_, rfl⟩
  · rw [update_task_with_assignee s tid a t (assignOnly u) u ht (by simp [ha]) rfl hu]
    rfl
  · unfold assign_task
    rw [ht]
    dsimp only
    rw [if_neg (by simpa using hna)]

theorem assignee_can_reassign_via_update_task_witness :
    update_task demoStore 11 (assignOnly 3) 2 =
      Except.ok
        ({ demoStore with tasks := updateFirst (fun x => x.id == 11)
                            (fun _ => { demoTask with assignee_id := some 3 })
                            demoStore.tasks },
          { demoTask with assignee_id := some 3 }) ∧
    assign_task demoStore 11 { assignee_id := 3 } 2 =
      Except.error "Only task creator can assign task" ∧
    errClass "Only task creator can assign task" = ErrClass.forbidden :=
  assignee_can_reassign_via_update_task demoStore 11 demoTask 2 3 rfl rfl (by decide) rfl

theorem apply_task_fields_status_of_some (t : TaskRec) (ti de : Option String)
    (du : Option Nat) (st : String) (v : TaskStatus) (t' : TaskRec)
    (hst : TaskStatus.ofString st = some v)
    (h : apply_task_fields t (withStatusField ti de st du) = Except.ok t') :
    t'.status = v := by
  rcases ti with _ | x <;> rcases de with _ | y <;> rcases du with _ | z <;>
    simp only [apply_task_fields, withStatusField, hst] at h <;>
    (injection h with h1; subst h1; rfl)

theorem apply_task_fields_invalid (t : TaskRec) (ti de : Option String)
    (du : Option Nat) (st : String)
    (hst : TaskStatus.ofString st = none) :
    apply_task_fields t (withStatusField ti de st du) =
      Except.error "Invalid task status" := by
  simp only [apply_task_fields, withStatusField, hst]

/-- C4: for an existing task and a creator-or-assignee caller, a status
update — through updateStatus, or through updateTask with a status field
supplied — succeeds exactly when the string decodes to one of the three
TaskStatus values; for any other string both paths fail with
"Invalid task status" (InvalidArgument) before any commit, so the stored
status and all other stored fields are unchanged (an error result carries
no store mutation in this embedding, matching the source, where the raised
ValueError prevents the commit). -/
theorem task_status_update_validation (s : Store) (tid uid : Nat) (t : TaskRec)
    (ht : get_task_by_id s tid = some t)
    (hauth : t.created_by = uid ∨ t.assignee_id = some uid) :
    (∀ st v, TaskStatus.ofString st = some v →
      update_task_status s tid { status := st } uid = Except.ok
        ({ s with tasks := updateFirst (fun x => x.id == tid)
                             (fun _ => { t with status := v }) s.tasks },
          { t with status := v })) ∧
    (∀ st, TaskStatus.ofString st = none →
      update_task_status s tid { status := st } uid = Except.error "Invalid task status" ∧
      errClass "Invalid task status" = ErrClass.invalidArgument) ∧
    (∀ ti de du st v t', TaskStatus.ofString st = some v →
      apply_task_fields t (withStatusField ti de st du) = Except.ok t' →
      update_task s tid (withStatusField ti de st du) uid = Except.ok
        ({ s with tasks := updateFirst (fun x => x.id == tid) (fun _ => t') s.tasks }, t') ∧
      t'.status = v) ∧
    (∀ ti de du st, TaskStatus.ofString st = none →
      update_task s tid (withStatusField ti de st du) uid =
        Except.error "Invalid task status") := by
  have hb : (t.created_by == uid || t.assignee_id == some uid) = true := by
    rcases hauth with h | h <;> simp [h]
  refine ⟨?_, ?_, ?_, ?_⟩
  · intro st v hst
    unfold update_task_status
    rw [ht]
    dsimp only
    rw [if_pos hb]
    simp only [hst]
  · intro st hst
    refine ⟨?_, rfl⟩
    unfold update_task_status
    rw [ht]
    dsimp only
    rw [if_pos hb]
    simp only [hst]
  · intro ti de du st v t' hst happ
    refine ⟨?_, apply_task_fields_status_of_some t ti de du st v t' hst happ⟩
    rw [update_task_no_assignee s tid uid t (withStatusField ti de st du) ht hb rfl, happ]
  · intro ti de du st hst
    rw [update_task_no_assignee s tid uid t (withStatusField ti de st du) ht hb rfl,
      apply_task_fields_invalid t ti de du st hst]

theorem task_status_update_validation_witness :
    update_task_status demoStore 11 { status := "done" } 2 = Except.ok
      ({ demoStore with tasks := updateFirst (fun x => x.id == 11)
                          (fun _ => { demoTask with status := TaskStatus.done })
                          demoStore.tasks },
        { demoTask with status := TaskStatus.done }) :=
  (task_status_update_validation demoStore 11 2 demoTask rfl (Or.inr rfl)).1
    "done" TaskStatus.done rfl

end InsightFlow
